import Mathlib

/-!
Verification of the json-templates library (src/index.js) against its
natural-language specification.

The development shallowly embeds the JavaScript source: JavaScript values are
modelled by the inductive `JSValue` (with machine doubles restricted to the
integers actually exercised, and zero-argument callables modelled by their
observable behaviour: return a value, or throw), render-time exceptions are
modelled by `Except RenderError`, and the three external collaborators
(object-path lookup, key-based dedupe, and the notevil expression evaluator)
are modelled at their interface boundary, the evaluator being passed in as an
explicit `Evaluator` argument since its code is not part of this repository.
-/

namespace JsonTemplates

/-- A JavaScript value as observable by the json-templates code. `date` carries
an epoch timestamp; `funcRet v` is a zero-argument callable returning `v`;
`funcThrow` is a zero-argument callable that throws when invoked. -/
inductive JSValue where
  | str : String → JSValue
  | num : Int → JSValue
  | bool : Bool → JSValue
  | null : JSValue
  | undefined : JSValue
  | date : Int → JSValue
  | arr : List JSValue → JSValue
  | obj : List (String × JSValue) → JSValue
  | funcRet : JSValue → JSValue
  | funcThrow : JSValue
deriving Repr

/-- An exception escaping a render call: `typeError` models the TypeError JS
raises when a string method is invoked on a non-string receiver (e.g.
`null.replace`), `functionThrew` models an exception raised by a callable
context value invoked at line 109 of src/index.js. -/
inductive RenderError where
  | typeError : RenderError
  | functionThrew : RenderError
deriving Repr, DecidableEq

/-- JavaScript `typeof`: note `typeof null === 'object'`, arrays and dates are
plain `"object"`, and callables are `"function"`. -/
def jsTypeof : JSValue → String
  | JSValue.str _ => "string"
  | JSValue.num _ => "number"
  | JSValue.bool _ => "boolean"
  | JSValue.null => "object"
  | JSValue.undefined => "undefined"
  | JSValue.date _ => "object"
  | JSValue.arr _ => "object"
  | JSValue.obj _ => "object"
  | JSValue.funcRet _ => "function"
  | JSValue.funcThrow => "function"

/-- Models `Array.isArray(value)` (src/index.js line 13). -/
def isArrayValue : JSValue → Bool
  | JSValue.arr _ => true
  | _ => false

/-- Models `value instanceof Date` (src/index.js line 15). -/
def isDateValue : JSValue → Bool
  | JSValue.date _ => true
  | _ => false

/-- Models `value === null` (src/index.js line 17). -/
def isNullValue : JSValue → Bool
  | JSValue.null => true
  | _ => false

/-- The enhanced `type` classifier of src/index.js lines 11-22. -/
def typeOf (value : JSValue) : String :=
  if isArrayValue value then "array"
  else if isDateValue value then "date"
  else if isNullValue value then "null"
  else jsTypeof value

/-- The condition `value === undefined || value == null` of line 96 (loose
`== null` holds exactly for `null` and `undefined`) and also the strict
condition `value === undefined || value === null` of line 116. -/
def isUndefOrNull : JSValue → Bool
  | JSValue.undefined => true
  | JSValue.null => true
  | _ => false

/-- JavaScript truthiness of a value (used by `context = context || {}`,
line 92). `NaN` does not arise in the integer model. -/
def jsTruthy : JSValue → Bool
  | JSValue.undefined => false
  | JSValue.null => false
  | JSValue.bool b => b
  | JSValue.num n => decide (n ≠ 0)
  | JSValue.str s => decide (s ≠ "")
  | _ => true

/-- Models `context || {}` of src/index.js line 92. -/
def contextOrEmpty (context : JSValue) : JSValue :=
  if jsTruthy context then context else JSValue.obj []

mutual
/-- JavaScript `String(value)` coercion, as used by `str.replace(match, value)`
(line 125) and by property-key coercion (line 147). The `date` and function
cases stand in for JS's environment-dependent source/locale texts; they are
unreachable in every render path exercised here (object-typed values are
returned at line 113 before any stringification). -/
def jsToString : JSValue → String
  | JSValue.str s => s
  | JSValue.num n => toString n
  | JSValue.bool b => cond b "true" "false"
  | JSValue.null => "null"
  | JSValue.undefined => "undefined"
  | JSValue.date t => "Date:" ++ toString t
  | JSValue.arr elems => jsArrayJoin elems
  | JSValue.obj _ => "[object Object]"
  | JSValue.funcRet _ => "function"
  | JSValue.funcThrow => "function"
termination_by structural v => v

/-- Models `Array.prototype.join(',')` as performed by `String(array)`: `null` and
`undefined` elements become empty strings. -/
def jsArrayJoin : List JSValue → String
  | [] => ""
  | [v] =>
    match v with
    | JSValue.null => ""
    | JSValue.undefined => ""
    | w => jsToString w
  | v :: rest =>
    (match v with
     | JSValue.null => ""
     | JSValue.undefined => ""
     | w => jsToString w) ++ "," ++ jsArrayJoin rest
termination_by structural l => l
end

/-- Splits `l` around the first occurrence of `pattern`, returning the part
before and the part after, or `none` when `pattern` does not occur. -/
def splitFirstOccur (pattern : List Char) : List Char → Option (List Char × List Char)
  | [] => if pattern = [] then some ([], []) else none
  | c :: rest =>
    if pattern.isPrefixOf (c :: rest) then some ([], (c :: rest).drop pattern.length)
    else
      match splitFirstOccur pattern rest with
      | some (before, after) => some (c :: before, after)
      | none => none

/-- The `$`-substitution JavaScript performs in the replacement string of
`String.prototype.replace` with a string pattern: `$$` gives a literal dollar,
`$&` the matched text, a dollar followed by a backquote the text before the
match, and a dollar followed by a single quote the text after it. -/
def expandReplacement (matched before after : List Char) : List Char → List Char
  | [] => []
  | '$' :: c :: rest =>
    if c = '$' then '$' :: expandReplacement matched before after rest
    else if c = '&' then matched ++ expandReplacement matched before after rest
    else if c = Char.ofNat 96 then before ++ expandReplacement matched before after rest
    else if c = Char.ofNat 39 then after ++ expandReplacement matched before after rest
    else '$' :: expandReplacement matched before after (c :: rest)
  | c :: rest => c :: expandReplacement matched before after rest

/-- Models `s.replace(pattern, replacement)` with a string pattern: replaces the
first occurrence only (src/index.js line 125). -/
def jsReplace (s pattern replacement : String) : String :=
  match splitFirstOccur pattern.toList s.toList with
  | none => s
  | some (before, after) =>
    (before ++ expandReplacement pattern.toList before after replacement.toList ++ after).asString

/-- JavaScript `path.split('.')` as performed inside the object-path
collaborator; an empty path gives the singleton list of the empty string. -/
def splitPathAux : List Char → List Char → List String
  | [], acc => [acc.reverse.asString]
  | '.' :: rest, acc => acc.reverse.asString :: splitPathAux rest []
  | c :: rest, acc => splitPathAux rest (c :: acc)

/-- The segments of a dotted path string. -/
def splitPath (path : String) : List String :=
  splitPathAux path.toList []

/-- JavaScript `s.startsWith(pre)`. -/
def jsStartsWith (s pre : String) : Bool :=
  pre.toList.isPrefixOf s.toList

/-- JavaScript `s.endsWith(suf)`. -/
def jsEndsWith (s suf : String) : Bool :=
  suf.toList.isSuffixOf s.toList

/-- First binding of key `k` in an object's field list. -/
def lookupField (k : String) : List (String × JSValue) → Option JSValue
  | [] => none
  | (key, v) :: rest => if key = k then some v else lookupField k rest

/-- Walks a split path, as the object-path collaborator does: object fields by
name, array elements by canonically-written numeric index, `undefined` as soon
as a segment is missing or the receiver cannot hold properties. -/
def getPath : JSValue → List String → JSValue
  | v, [] => v
  | v, k :: rest =>
    match v with
    | JSValue.obj fields =>
      match lookupField k fields with
      | some w => getPath w rest
      | none => JSValue.undefined
    | JSValue.arr elems =>
      match k.toNat? with
      | some i =>
        if toString i = k then
          match elems.get? i with
          | some w => getPath w rest
          | none => JSValue.undefined
        else JSValue.undefined
      | none => JSValue.undefined
    | _ => JSValue.undefined

/-- The object-path collaborator's `get(context, key)` (src/index.js line 95),
modelled at its documented interface: the path splits on dots, with numeric
segments indexing arrays; any missing segment yields `undefined`. -/
def objectPathGet (context : JSValue) (path : String) : JSValue :=
  getPath context (splitPath path)

/-- The whitespace class of JavaScript (`\s` in the tokenizer regex, and the
set trimmed by `String.prototype.trim`). -/
def isJsWhitespace (c : Char) : Bool :=
  c = ' ' || c = '\t' || c = '\n' || c = '\r' ||
  c.toNat = 11 || c.toNat = 12 || c.toNat = 160 || c.toNat = 65279 ||
  c.toNat = 5760 || (8192 ≤ c.toNat && c.toNat ≤ 8202) ||
  c.toNat = 8232 || c.toNat = 8233 || c.toNat = 8239 || c.toNat = 8287 || c.toNat = 12288

/-- Models `String.prototype.trim` on a character list. -/
def trimChars (cs : List Char) : List Char :=
  ((cs.dropWhile isJsWhitespace).reverse.dropWhile isJsWhitespace).reverse

/-- Membership in the character class of the tokenizer regex at src/index.js
line 82: `\w`, `:`, or one of the listed punctuation characters (the `\s-+`
run inside the class denotes, per JavaScript's Annex-B class-range rules, the
three alternatives whitespace, hyphen and plus). -/
def isTemplateChar (c : Char) : Bool :=
  (c.isAlphanum || c = '_') || c = ':' ||
  c = '{' || c = '}' || c = Char.ofNat 34 || c = '[' || c = ']' ||
  isJsWhitespace c ||
  c = '-' || c = '+' || c = '.' || c = ',' || c = '@' || c = '/' ||
  c = '(' || c = ')' || c = '?' || c = '=' || c = '*' || c = '_' || c = '$'

/-- The lazy body of the tokenizer regex: consumes at least one class
character and stops at the first following `\x7d\x7d`, returning the body and
the rest of the input; fails on a character outside the class. -/
def matchBody : List Char → List Char → Option (List Char × List Char)
  | [], _ => none
  | c :: rest, acc =>
    if isTemplateChar c then
      match rest with
      | '}' :: '}' :: rest' => some (acc ++ [c], rest')
      | _ => matchBody rest (acc ++ [c])
    else none

/-- One attempt of the tokenizer regex at the head of the input. -/
def scanMatch : List Char → Option (List Char × List Char)
  | '{' :: '{' :: rest => matchBody rest []
  | _ => none

/-- Global scan of the tokenizer regex, fuelled by the input length (each
step of the scan consumes at least one character, so this fuel is always
sufficient; see `findMatchesAux_fuel_irrelevant`). -/
def findMatchesAux : Nat → List Char → List String
  | 0, _ => []
  | _ + 1, [] => []
  | fuel + 1, c :: rest =>
    match scanMatch (c :: rest) with
    | some (body, rest') =>
      ("\x7b\x7b" ++ body.asString ++ "\x7d\x7d") :: findMatchesAux fuel rest'
    | none => findMatchesAux fuel rest

/-- Models `str.match(regex)` with the global tokenizer regex of src/index.js line
82: the list of all non-overlapping matches, in order ( `[]` when
`regex.test(str)` is false). -/
def findMatchesStr (s : String) : List String :=
  findMatchesAux s.toList.length s.toList

/-- A parameter descriptor: `key` is the context path, `defaultValue` the raw
text after the first colon when one is present. -/
structure Param where
  key : String
  defaultValue : Option String
deriving Repr, DecidableEq

/-- The `Parameter` constructor of src/index.js lines 27-42:
`match.substr(2, match.length - 4).trim()` then split at the first `:`;
without a colon there is no `defaultValue`. -/
def Parameter (mtch : String) : Param :=
  let cs := mtch.toList
  let matchValue := trimChars ((cs.drop 2).take (cs.length - 4))
  match matchValue.findIdx? (fun c => c = ':') with
  | some i =>
    { key := (matchValue.take i).asString
      defaultValue := some ((matchValue.drop (i + 1)).asString) }
  | none => { key := matchValue.asString, defaultValue := none }

/-- Worker of the dedupe collaborator, carrying the keys already seen. -/
def dedupeAux (keyFn : Param → String) : List Param → List String → List Param
  | [], _ => []
  | p :: rest, seen =>
    if seen.contains (keyFn p) then dedupeAux keyFn rest seen
    else p :: dedupeAux keyFn rest (keyFn p :: seen)

/-- The dedupe collaborator `dedupe(list, keyFn)` (src/index.js line 48): a
new list keeping only the first element observed for each distinct key, in
first-occurrence order. -/
def dedupe (l : List Param) (keyFn : Param → String) : List Param :=
  dedupeAux keyFn l []

/-- A compiled template: the render function together with its `parameters`
attribute. -/
structure Template where
  fn : JSValue → Except RenderError JSValue
  parameters : List Param

/-- The `Template` wrapper of src/index.js lines 45-52: attaches the deduped
parameter list to the render function. -/
def mkTemplate (fn : JSValue → Except RenderError JSValue) (parameters : List Param) : Template :=
  { fn := fn, parameters := dedupe parameters (fun item => item.key) }

/-- The notevil expression-evaluation collaborator `safeEval(src, context)`
(src/index.js line 101), at its interface boundary: it receives the raw
default-value source (`none` models the JS `undefined` passed when the
parameter has no default) and either produces a value or throws. -/
def Evaluator : Type :=
  Option String → JSValue → Except Unit JSValue

/-- A degenerate evaluator that rejects every expression; render paths with
`evalDefaults` false never consult it, so closed statements use it freely. -/
def noEval : Evaluator := fun _ _ => Except.error ()

/-- A concrete evaluator knowing just the arithmetic fact the spec's example
exercises, standing in for notevil on the source text `1+1`. -/
def addEval : Evaluator := fun src _ =>
  if src = some "1+1" then Except.ok (JSValue.num 2) else Except.error ()

/-- Models `if (typeof value === 'function') value = value();` — src/index.js lines
108-110. A throwing callable is not caught anywhere in the renderer. -/
def invokeIfCallable : JSValue → Except RenderError JSValue
  | JSValue.funcRet v => Except.ok v
  | JSValue.funcThrow => Except.error RenderError.functionThrew
  | v => Except.ok v

/-- The guard `matches.length === 1 && str.startsWith('...') &&
str.endsWith('...')` of src/index.js line 121, where `str` is the fold
accumulator; calling `startsWith` on a non-string accumulator would raise a
TypeError (unreachable, since with a single match the accumulator is still
the original string). -/
def checkWholeMatch (numMatches : Nat) (acc : JSValue) : Except RenderError Bool :=
  if numMatches = 1 then
    match acc with
    | JSValue.str s => Except.ok (jsStartsWith s "\x7b\x7b" && jsEndsWith s "\x7d\x7d")
    | _ => Except.error RenderError.typeError
  else Except.ok false

/-- Lines 95-106 of src/index.js: resolve the parameter's key against the
context; when the result is `undefined` or `null`, fall back to the raw
default-value source, and under `evalDefaults === true` try the evaluator,
silently keeping the raw default on an evaluation failure (the
`try...catch` with an empty catch block). -/
def resolveParamValue (ev : Evaluator) (evalDefaults : Bool) (context : JSValue)
    (parameter : Param) : JSValue :=
  let value := objectPathGet context parameter.key
  if isUndefOrNull value then
    let dflt :=
      match parameter.defaultValue with
      | some d => JSValue.str d
      | none => JSValue.undefined
    if evalDefaults then
      match ev parameter.defaultValue context with
      | Except.ok w => w
      | Except.error _ => dflt
    else dflt
  else value

/-- Lines 112-125 of src/index.js, after callable invocation: an
object-typed value (recall `typeof null === 'object'`) becomes the new
accumulator wholesale; residual `undefined` is mapped to `null`; a
whole-string single placeholder returns the value natively; otherwise the
stringified value is spliced over the first occurrence of the matched text
in the accumulator — raising a TypeError when the accumulator is no longer
a string. -/
def spliceValue (numMatches : Nat) (acc : JSValue) (mtch : String) (value : JSValue) :
    Except RenderError JSValue :=
  if jsTypeof value = "object" then Except.ok value
  else if isUndefOrNull value then Except.ok JSValue.null
  else
    match checkWholeMatch numMatches acc with
    | Except.error e => Except.error e
    | Except.ok true => Except.ok value
    | Except.ok false =>
      match acc with
      | JSValue.str s => Except.ok (JSValue.str (jsReplace s mtch (jsToString value)))
      | _ => Except.error RenderError.typeError

/-- The body of the `matches.reduce` callback of src/index.js lines 93-126
for one match: resolve (with default substitution), invoke callables (a
throwing callable aborts the whole render), then splice. -/
def stringRenderStep (ev : Evaluator) (evalDefaults : Bool) (context : JSValue)
    (numMatches : Nat) (acc : JSValue) (mtch : String) (parameter : Param) :
    Except RenderError JSValue :=
  match invokeIfCallable (resolveParamValue ev evalDefaults context parameter) with
  | Except.error e => Except.error e
  | Except.ok value => spliceValue numMatches acc mtch value

/-- The compiled render function of a placeholder-bearing string: normalise
the context (`context = context || {}`) and fold `stringRenderStep` over the
matches paired with their parameter descriptors (`parameters[i]` in the JS
source), starting from the original string. -/
def stringTemplateFn (ev : Evaluator) (evalDefaults : Bool) (str : String)
    (matchList : List String) (parameters : List Param) (context : JSValue) :
    Except RenderError JSValue :=
  let context := contextOrEmpty context
  (matchList.zip parameters).foldlM
    (fun acc mp => stringRenderStep ev evalDefaults context matchList.length acc mp.1 mp.2)
    (JSValue.str str)

/-- Models `parseString` of src/index.js lines 79-132: a string without matches
compiles to a constant template with no parameters (`regex.test(str)` false
is exactly `findMatchesStr str = []`); otherwise the parameter list has one
descriptor per match and the render function is the fold above. -/
def parseString (ev : Evaluator) (str : String) (evalDefaults : Bool) : Template :=
  let matchList := findMatchesStr str
  if matchList.isEmpty then
    mkTemplate (fun _ => Except.ok (JSValue.str str)) []
  else
    let parameters := matchList.map Parameter
    mkTemplate (stringTemplateFn ev evalDefaults str matchList parameters) parameters

/-- A compiled object entry: the key's string template and the value's
template (src/index.js lines 136-139). -/
structure Child where
  keyTemplate : Template
  valueTemplate : Template

/-- Parameter aggregation of `parseObject` (lines 140-144): for every child
in order, the value template's parameters then the key template's. -/
def objectTemplateParameters (children : List Child) : List Param :=
  children.foldl
    (fun parameters child =>
      parameters ++ child.valueTemplate.parameters ++ child.keyTemplate.parameters)
    []

/-- Property assignment `newObject[k] = v`: an existing key is overwritten in
place, a new key is appended. (The special JS iteration order of integer-like
keys is not modelled.) -/
def assignField (fields : List (String × JSValue)) (k : String) (v : JSValue) :
    List (String × JSValue) :=
  if fields.any (fun kv => kv.1 == k) then
    fields.map (fun kv => if kv.1 == k then (k, v) else kv)
  else fields ++ [(k, v)]

/-- One assignment `newObject[child.keyTemplate(context)] =
child.valueTemplate(context)` of line 147: the key template runs before the
value template (JS evaluates the member expression before the right-hand
side), and the rendered key is string-coerced. -/
def objAssignStep (context : JSValue) (newObject : List (String × JSValue))
    (child : Child) : Except RenderError (List (String × JSValue)) := do
  let k ← child.keyTemplate.fn context
  let v ← child.valueTemplate.fn context
  pure (assignField newObject (jsToString k) v)

/-- The reduce over the children (lines 146-149). -/
def objectTemplateFn (children : List Child) (context : JSValue) :
    Except RenderError JSValue := do
  let fields ← children.foldlM (objAssignStep context) ([] : List (String × JSValue))
  pure (JSValue.obj fields)

/-- Parameter aggregation of `parseArray` (lines 158-161). -/
def arrayTemplateParameters (templates : List Template) : List Param :=
  templates.foldl (fun parameters t => parameters ++ t.parameters) []

/-- The render function of `parseArray` (line 162): map each element template
over the context, preserving order. -/
def arrayTemplateFn (templates : List Template) (context : JSValue) :
    Except RenderError JSValue := do
  let elems ← templates.mapM (fun t => t.fn context)
  pure (JSValue.arr elems)

/-- Models `parseObject` of src/index.js lines 135-153, over the already-compiled
children (the recursion over the object's entries lives in `parseChildren`
inside the `parse` mutual block, for structural termination). -/
def parseObject (children : List Child) : Template :=
  mkTemplate (objectTemplateFn children) (objectTemplateParameters children)

/-- Models `parseArray` of src/index.js lines 156-165, over the already-compiled
element templates. -/
def parseArray (templates : List Template) : Template :=
  mkTemplate (arrayTemplateFn templates) (arrayTemplateParameters templates)

mutual
/-- The dispatcher `parse` of src/index.js lines 62-75: strings go to
`parseString`, objects to `parseObject`, arrays to `parseArray`, and every
other classification (`number`, `boolean`, `null`, `undefined`, `date`,
`function`) to a constant template with no parameters. The match below is
case-for-case the `switch (type(value))` of the source. -/
def parse (ev : Evaluator) (evalDefaults : Bool) : JSValue → Template
  | JSValue.str s => parseString ev s evalDefaults
  | JSValue.obj fields => parseObject (parseChildren ev evalDefaults fields)
  | JSValue.arr elems => parseArray (parseTemplates ev evalDefaults elems)
  | value => mkTemplate (fun _ => Except.ok value) []
termination_by structural v => v

/-- The `Object.keys(object).map(...)` of lines 136-139: each key compiles as
a string template, each value through the dispatcher. -/
def parseChildren (ev : Evaluator) (evalDefaults : Bool) :
    List (String × JSValue) → List Child
  | [] => []
  | (key, v) :: rest =>
    { keyTemplate := parseString ev key evalDefaults
      valueTemplate := parse ev evalDefaults v } :: parseChildren ev evalDefaults rest
termination_by structural l => l

/-- The `array.map(el => parse(el, evalDefaults))` of line 157. -/
def parseTemplates (ev : Evaluator) (evalDefaults : Bool) :
    List JSValue → List Template
  | [] => []
  | v :: rest => parse ev evalDefaults v :: parseTemplates ev evalDefaults rest
termination_by structural l => l
end

/-! ### Basic facts about the render pipeline -/

theorem invokeIfCallable_not_function (v : JSValue) (h : jsTypeof v ≠ "function") :
    invokeIfCallable v = Except.ok v := by
  cases v <;> first | rfl | exact absurd rfl h

theorem resolveParamValue_found (ev : Evaluator) (ed : Bool) (ctx : JSValue) (p : Param)
    (h : isUndefOrNull (objectPathGet ctx p.key) = false) :
    resolveParamValue ev ed ctx p = objectPathGet ctx p.key := by
  simp [resolveParamValue, h]

theorem resolveParamValue_missing_raw (ev : Evaluator) (ctx : JSValue) (p : Param)
    (h : isUndefOrNull (objectPathGet ctx p.key) = true) :
    resolveParamValue ev false ctx p
      = match p.defaultValue with
        | some d => JSValue.str d
        | none => JSValue.undefined := by
  simp [resolveParamValue, h]

theorem resolveParamValue_missing_eval_ok (ev : Evaluator) (ctx : JSValue) (p : Param)
    (w : JSValue) (h : isUndefOrNull (objectPathGet ctx p.key) = true)
    (hev : ev p.defaultValue ctx = Except.ok w) :
    resolveParamValue ev true ctx p = w := by
  simp [resolveParamValue, h, hev]

theorem resolveParamValue_missing_eval_error (ev : Evaluator) (ctx : JSValue) (p : Param)
    (e : Unit) (h : isUndefOrNull (objectPathGet ctx p.key) = true)
    (hev : ev p.defaultValue ctx = Except.error e) :
    resolveParamValue ev true ctx p
      = match p.defaultValue with
        | some d => JSValue.str d
        | none => JSValue.undefined := by
  simp [resolveParamValue, h, hev]

theorem stringRenderStep_value (ev : Evaluator) (ed : Bool) (ctx : JSValue) (n : Nat)
    (acc : JSValue) (m : String) (p : Param) (w : JSValue)
    (h : invokeIfCallable (resolveParamValue ev ed ctx p) = Except.ok w) :
    stringRenderStep ev ed ctx n acc m p = spliceValue n acc m w := by
  simp [stringRenderStep, h]

theorem stringRenderStep_funcThrow (ev : Evaluator) (ed : Bool) (ctx : JSValue) (n : Nat)
    (acc : JSValue) (m : String) (p : Param)
    (h : resolveParamValue ev ed ctx p = JSValue.funcThrow) :
    stringRenderStep ev ed ctx n acc m p = Except.error RenderError.functionThrew := by
  simp [stringRenderStep, h, invokeIfCallable]

theorem spliceValue_object (n : Nat) (acc : JSValue) (m : String) (value : JSValue)
    (h : jsTypeof value = "object") :
    spliceValue n acc m value = Except.ok value := by
  simp [spliceValue, h]

theorem spliceValue_undefined (n : Nat) (acc : JSValue) (m : String) :
    spliceValue n acc m JSValue.undefined = Except.ok JSValue.null := by
  simp [spliceValue, jsTypeof, isUndefOrNull]

theorem spliceValue_scalar_whole (acc : String) (m : String) (value : JSValue)
    (h1 : jsTypeof value ≠ "object") (h2 : isUndefOrNull value = false)
    (h3 : (jsStartsWith acc "\x7b\x7b" && jsEndsWith acc "\x7d\x7d") = true) :
    spliceValue 1 (JSValue.str acc) m value = Except.ok value := by
  simp [spliceValue, h1, h2, checkWholeMatch, h3]

theorem spliceValue_scalar_splice (acc : String) (m : String) (value : JSValue)
    (h1 : jsTypeof value ≠ "object") (h2 : isUndefOrNull value = false)
    (h3 : (jsStartsWith acc "\x7b\x7b" && jsEndsWith acc "\x7d\x7d") = false) :
    spliceValue 1 (JSValue.str acc) m value
      = Except.ok (JSValue.str (jsReplace acc m (jsToString value))) := by
  simp [spliceValue, h1, h2, checkWholeMatch, h3]

theorem spliceValue_multi_null_acc (n : Nat) (m : String) (value : JSValue)
    (h1 : jsTypeof value ≠ "object") (h2 : isUndefOrNull value = false) (hn : n ≠ 1) :
    spliceValue n JSValue.null m value = Except.error RenderError.typeError := by
  simp [spliceValue, h1, h2, checkWholeMatch, hn]

theorem parseString_no_match (ev : Evaluator) (ed : Bool) (str : String)
    (h : findMatchesStr str = []) (ctx : JSValue) :
    (parseString ev str ed).fn ctx = Except.ok (JSValue.str str) := by
  simp [parseString, h, mkTemplate]

theorem parseString_parameters_eq (ev : Evaluator) (ed : Bool) (str : String) :
    (parseString ev str ed).parameters
      = dedupe ((findMatchesStr str).map Parameter) (fun item => item.key) := by
  cases h : findMatchesStr str with
  | nil => simp [parseString, h, mkTemplate, dedupe, dedupeAux]
  | cons m ms => simp [parseString, h, mkTemplate]

theorem parseString_fn_single (ev : Evaluator) (ed : Bool) (str : String) (m : String)
    (h : findMatchesStr str = [m]) (ctx : JSValue) :
    (parseString ev str ed).fn ctx
      = stringRenderStep ev ed (contextOrEmpty ctx) 1 (JSValue.str str) m (Parameter m) := by
  simp [parseString, h, mkTemplate, stringTemplateFn, List.foldlM]

theorem parseString_fn_pair (ev : Evaluator) (ed : Bool) (str : String) (m1 m2 : String)
    (h : findMatchesStr str = [m1, m2]) (ctx : JSValue) :
    (parseString ev str ed).fn ctx
      = (stringRenderStep ev ed (contextOrEmpty ctx) 2 (JSValue.str str) m1 (Parameter m1)).bind
          (fun acc => stringRenderStep ev ed (contextOrEmpty ctx) 2 acc m2 (Parameter m2)) := by
  simp [parseString, h, mkTemplate, stringTemplateFn, List.foldlM]
  cases stringRenderStep ev ed (contextOrEmpty ctx) 2 (JSValue.str str) m1 (Parameter m1) <;> rfl

/-! ### Lifting the string-render lemmas through the dispatcher -/

theorem parse_fn_no_match (ev : Evaluator) (ed : Bool) (str : String)
    (h : findMatchesStr str = []) (ctx : JSValue) :
    (parse ev ed (JSValue.str str)).fn ctx = Except.ok (JSValue.str str) :=
  parseString_no_match ev ed str h ctx

theorem parse_fn_single (ev : Evaluator) (ed : Bool) (str : String) (m : String)
    (h : findMatchesStr str = [m]) (ctx : JSValue) :
    (parse ev ed (JSValue.str str)).fn ctx
      = stringRenderStep ev ed (contextOrEmpty ctx) 1 (JSValue.str str) m (Parameter m) :=
  parseString_fn_single ev ed str m h ctx

theorem parse_fn_pair (ev : Evaluator) (ed : Bool) (str : String) (m1 m2 : String)
    (h : findMatchesStr str = [m1, m2]) (ctx : JSValue) :
    (parse ev ed (JSValue.str str)).fn ctx
      = (stringRenderStep ev ed (contextOrEmpty ctx) 2 (JSValue.str str) m1 (Parameter m1)).bind
          (fun acc => stringRenderStep ev ed (contextOrEmpty ctx) 2 acc m2 (Parameter m2)) :=
  parseString_fn_pair ev ed str m1 m2 h ctx

/-! ### Claim C2 -/

/-- C2: for a string that is exactly one placeholder spanning the whole
string (single tokenizer match, starts with the opening and ends with the
closing braces), rendering returns the resolved value with its native type;
for a placeholder embedded in surrounding text, the resolved value is
stringified and spliced into the text. -/
theorem C2_whole_string_native_embedded_stringified
    (ev : Evaluator) (ed : Bool) (str m : String) (ctx v : JSValue)
    (hm : findMatchesStr str = [m])
    (hv : objectPathGet (contextOrEmpty ctx) (Parameter m).key = v)
    (hnn : isUndefOrNull v = false)
    (hno : jsTypeof v ≠ "object")
    (hnf : jsTypeof v ≠ "function") :
    ((jsStartsWith str "\x7b\x7b" && jsEndsWith str "\x7d\x7d") = true →
        (parse ev ed (JSValue.str str)).fn ctx = Except.ok v)
    ∧ ((jsStartsWith str "\x7b\x7b" && jsEndsWith str "\x7d\x7d") = false →
        (parse ev ed (JSValue.str str)).fn ctx
          = Except.ok (JSValue.str (jsReplace str m (jsToString v)))) := by
  have hres : resolveParamValue ev ed (contextOrEmpty ctx) (Parameter m) = v := by
    rw [resolveParamValue_found _ _ _ _ (by rw [hv]; exact hnn), hv]
  have hstep : (parse ev ed (JSValue.str str)).fn ctx = spliceValue 1 (JSValue.str str) m v := by
    rw [parse_fn_single ev ed str m hm ctx,
      stringRenderStep_value _ _ _ _ _ _ _ v
        (by rw [hres]; exact invokeIfCallable_not_function v hnf)]
  constructor
  · intro hw; rw [hstep]; exact spliceValue_scalar_whole str m v hno hnn hw
  · intro hw; rw [hstep]; exact spliceValue_scalar_splice str m v hno hnn hw

/-- Witness for C2 at the spec's examples. -/
theorem C2_witness :
    (parse noEval false (JSValue.str "\x7b\x7ba\x7d\x7d")).fn
        (JSValue.obj [("a", JSValue.num 5)]) = Except.ok (JSValue.num 5)
    ∧ (parse noEval false (JSValue.str "x \x7b\x7ba\x7d\x7d y")).fn
        (JSValue.obj [("a", JSValue.num 5)]) = Except.ok (JSValue.str "x 5 y") := by
  constructor
  · exact (C2_whole_string_native_embedded_stringified noEval false
      "\x7b\x7ba\x7d\x7d" "\x7b\x7ba\x7d\x7d" (JSValue.obj [("a", JSValue.num 5)])
      (JSValue.num 5) rfl rfl rfl (by decide) (by decide)).1 rfl
  · exact (C2_whole_string_native_embedded_stringified noEval false
      "x \x7b\x7ba\x7d\x7d y" "\x7b\x7ba\x7d\x7d" (JSValue.obj [("a", JSValue.num 5)])
      (JSValue.num 5) rfl rfl rfl (by decide) (by decide)).2 rfl

/-! ### Claim C3 -/

/-- C3: a missing path falls back to the default-value source — verbatim as a
string when `evalDefaults` is false, evaluated against the context when it is
true, and on any evaluation failure the raw source is silently kept, the
failure never reaching the caller. -/
theorem C3_default_value_handling (ev : Evaluator) :
    ((parse ev false (JSValue.str "\x7b\x7ba:hello\x7d\x7d")).fn (JSValue.obj [])
        = Except.ok (JSValue.str "hello"))
    ∧ (ev (some "1+1") (JSValue.obj []) = Except.ok (JSValue.num 2) →
        (parse ev true (JSValue.str "\x7b\x7ba:1+1\x7d\x7d")).fn (JSValue.obj [])
          = Except.ok (JSValue.num 2))
    ∧ ((parse ev false (JSValue.str "\x7b\x7ba:1+1\x7d\x7d")).fn (JSValue.obj [])
        = Except.ok (JSValue.str "1+1"))
    ∧ (∀ e : Unit, ev (some "1+1") (JSValue.obj []) = Except.error e →
        (parse ev true (JSValue.str "\x7b\x7ba:1+1\x7d\x7d")).fn (JSValue.obj [])
          = Except.ok (JSValue.str "1+1")) := by
  refine ⟨rfl, fun hev => ?_, rfl, fun e hev => ?_⟩
  · have hres : resolveParamValue ev true (contextOrEmpty (JSValue.obj []))
        (Parameter "\x7b\x7ba:1+1\x7d\x7d") = JSValue.num 2 :=
      resolveParamValue_missing_eval_ok ev (contextOrEmpty (JSValue.obj []))
        (Parameter "\x7b\x7ba:1+1\x7d\x7d") (JSValue.num 2) rfl hev
    rw [parse_fn_single ev true "\x7b\x7ba:1+1\x7d\x7d" "\x7b\x7ba:1+1\x7d\x7d" rfl,
      stringRenderStep_value _ _ _ _ _ _ _ (JSValue.num 2)
        (by simp [hres, invokeIfCallable])]
    rfl
  · have hres : resolveParamValue ev true (contextOrEmpty (JSValue.obj []))
        (Parameter "\x7b\x7ba:1+1\x7d\x7d") = JSValue.str "1+1" :=
      resolveParamValue_missing_eval_error ev (contextOrEmpty (JSValue.obj []))
        (Parameter "\x7b\x7ba:1+1\x7d\x7d") e rfl hev
    rw [parse_fn_single ev true "\x7b\x7ba:1+1\x7d\x7d" "\x7b\x7ba:1+1\x7d\x7d" rfl,
      stringRenderStep_value _ _ _ _ _ _ _ (JSValue.str "1+1")
        (by simp [hres, invokeIfCallable])]
    rfl

/-- Witness for C3: instantiating the evaluator hypotheses with the concrete
evaluators `addEval` (succeeds on `1+1`) and `noEval` (always fails). -/
theorem C3_witness :
    (parse addEval true (JSValue.str "\x7b\x7ba:1+1\x7d\x7d")).fn (JSValue.obj [])
        = Except.ok (JSValue.num 2)
    ∧ (parse noEval true (JSValue.str "\x7b\x7ba:1+1\x7d\x7d")).fn (JSValue.obj [])
        = Except.ok (JSValue.str "1+1")
    ∧ (parse noEval false (JSValue.str "\x7b\x7ba:hello\x7d\x7d")).fn (JSValue.obj [])
        = Except.ok (JSValue.str "hello") := by
  exact ⟨(C3_default_value_handling addEval).2.1 rfl,
    (C3_default_value_handling noEval).2.2.2 () rfl,
    (C3_default_value_handling noEval).1⟩

/-! ### Claim C4 -/

/-- C4 counterexample: in `"\x7b\x7ba\x7d\x7d \x7b\x7bb\x7d\x7d"` the first
placeholder resolves to the object `\x7bn: 1\x7d`, yet the render result is
the object bound to the second placeholder — the fold is not short-circuited
and the remaining placeholder is not discarded, contradicting the claim that
the first object is returned as the entire result immediately. -/
theorem C4_counterexample :
    (parse noEval false (JSValue.str "\x7b\x7ba\x7d\x7d \x7b\x7bb\x7d\x7d")).fn
        (JSValue.obj [("a", JSValue.obj [("n", JSValue.num 1)]),
                      ("b", JSValue.obj [("m", JSValue.num 2)])])
      = Except.ok (JSValue.obj [("m", JSValue.num 2)])
    ∧ JSValue.obj [("m", JSValue.num 2)] ≠ JSValue.obj [("n", JSValue.num 1)] :=
  ⟨rfl, by simp⟩

/-- C4 (amended): an object-typed resolved value (arrays included) becomes
the new fold accumulator wholesale, discarding the accumulated text; for a
single-match string it is therefore the entire render result, but later
matches are still processed and a later object-typed value replaces it. -/
theorem C4_amended_object_replaces_accumulator
    (ev : Evaluator) (ed : Bool) (str m : String) (ctx v : JSValue)
    (hm : findMatchesStr str = [m])
    (hv : objectPathGet (contextOrEmpty ctx) (Parameter m).key = v)
    (hnn : isUndefOrNull v = false)
    (hnf : jsTypeof v ≠ "function")
    (ho : jsTypeof v = "object") :
    (parse ev ed (JSValue.str str)).fn ctx = Except.ok v
    ∧ ∀ (str2 m1 m2 : String) (ctx2 w1 w2 : JSValue),
        findMatchesStr str2 = [m1, m2] →
        objectPathGet (contextOrEmpty ctx2) (Parameter m1).key = w1 →
        objectPathGet (contextOrEmpty ctx2) (Parameter m2).key = w2 →
        isUndefOrNull w1 = false → jsTypeof w1 ≠ "function" → jsTypeof w1 = "object" →
        isUndefOrNull w2 = false → jsTypeof w2 ≠ "function" → jsTypeof w2 = "object" →
        (parse ev ed (JSValue.str str2)).fn ctx2 = Except.ok w2 := by
  constructor
  · have hres : resolveParamValue ev ed (contextOrEmpty ctx) (Parameter m) = v := by
      rw [resolveParamValue_found _ _ _ _ (by rw [hv]; exact hnn), hv]
    rw [parse_fn_single ev ed str m hm ctx,
      stringRenderStep_value _ _ _ _ _ _ _ v
        (by rw [hres]; exact invokeIfCallable_not_function v hnf)]
    exact spliceValue_object _ _ _ _ ho
  · intro str2 m1 m2 ctx2 w1 w2 hm2 hw1 hw2 h1n h1f h1o h2n h2f h2o
    have hres1 : resolveParamValue ev ed (contextOrEmpty ctx2) (Parameter m1) = w1 := by
      rw [resolveParamValue_found _ _ _ _ (by rw [hw1]; exact h1n), hw1]
    have hres2 : resolveParamValue ev ed (contextOrEmpty ctx2) (Parameter m2) = w2 := by
      rw [resolveParamValue_found _ _ _ _ (by rw [hw2]; exact h2n), hw2]
    rw [parse_fn_pair ev ed str2 m1 m2 hm2 ctx2,
      stringRenderStep_value _ _ _ _ _ _ _ w1
        (by rw [hres1]; exact invokeIfCallable_not_function w1 h1f),
      spliceValue_object _ _ _ _ h1o]
    show stringRenderStep ev ed (contextOrEmpty ctx2) 2 w1 m2 (Parameter m2) = Except.ok w2
    rw [stringRenderStep_value _ _ _ _ _ _ _ w2
        (by rw [hres2]; exact invokeIfCallable_not_function w2 h2f),
      spliceValue_object _ _ _ _ h2o]

/-- Witness for the amended C4 at the spec's example
`parse("\x7b\x7bobj\x7d\x7d")(\x7bobj: \x7bn: 1\x7d\x7d)`. -/
theorem C4_witness :
    (parse noEval false (JSValue.str "\x7b\x7bobj\x7d\x7d")).fn
        (JSValue.obj [("obj", JSValue.obj [("n", JSValue.num 1)])])
      = Except.ok (JSValue.obj [("n", JSValue.num 1)]) :=
  (C4_amended_object_replaces_accumulator noEval false
    "\x7b\x7bobj\x7d\x7d" "\x7b\x7bobj\x7d\x7d"
    (JSValue.obj [("obj", JSValue.obj [("n", JSValue.num 1)])])
    (JSValue.obj [("n", JSValue.num 1)]) rfl rfl rfl (by decide) rfl).1

/-! ### Claim C5 -/

/-- C5: a placeholder whose context path is missing never raises an error:
without a default the substituted value is `null`; with a default the default
replaces the missing value, raw under `evalDefaults = false` and evaluated
under `evalDefaults = true`. -/
theorem C5_missing_path_null_or_default (ev : Evaluator) (ctx : JSValue)
    (h : objectPathGet (contextOrEmpty ctx) "a" = JSValue.undefined) :
    ((parse ev false (JSValue.str "\x7b\x7ba\x7d\x7d")).fn ctx = Except.ok JSValue.null)
    ∧ ((parse ev false (JSValue.str "\x7b\x7ba:hello\x7d\x7d")).fn ctx
        = Except.ok (JSValue.str "hello"))
    ∧ (∀ n : Int, ev (some "hello") (contextOrEmpty ctx) = Except.ok (JSValue.num n) →
        (parse ev true (JSValue.str "\x7b\x7ba:hello\x7d\x7d")).fn ctx
          = Except.ok (JSValue.num n)) := by
  refine ⟨?_, ?_, fun n hev => ?_⟩
  · have hres : resolveParamValue ev false (contextOrEmpty ctx)
        (Parameter "\x7b\x7ba\x7d\x7d") = JSValue.undefined :=
      resolveParamValue_missing_raw ev (contextOrEmpty ctx)
        (Parameter "\x7b\x7ba\x7d\x7d") (by rw [show (Parameter "\x7b\x7ba\x7d\x7d").key = "a" from rfl, h]; rfl)
    rw [parse_fn_single ev false "\x7b\x7ba\x7d\x7d" "\x7b\x7ba\x7d\x7d" rfl,
      stringRenderStep_value _ _ _ _ _ _ _ JSValue.undefined
        (by simp [hres, invokeIfCallable])]
    exact spliceValue_undefined _ _ _
  · have hres : resolveParamValue ev false (contextOrEmpty ctx)
        (Parameter "\x7b\x7ba:hello\x7d\x7d") = JSValue.str "hello" :=
      resolveParamValue_missing_raw ev (contextOrEmpty ctx)
        (Parameter "\x7b\x7ba:hello\x7d\x7d")
        (by rw [show (Parameter "\x7b\x7ba:hello\x7d\x7d").key = "a" from rfl, h]; rfl)
    rw [parse_fn_single ev false "\x7b\x7ba:hello\x7d\x7d" "\x7b\x7ba:hello\x7d\x7d" rfl,
      stringRenderStep_value _ _ _ _ _ _ _ (JSValue.str "hello")
        (by simp [hres, invokeIfCallable])]
    rfl
  · have hres : resolveParamValue ev true (contextOrEmpty ctx)
        (Parameter "\x7b\x7ba:hello\x7d\x7d") = JSValue.num n :=
      resolveParamValue_missing_eval_ok ev (contextOrEmpty ctx)
        (Parameter "\x7b\x7ba:hello\x7d\x7d") (JSValue.num n)
        (by rw [show (Parameter "\x7b\x7ba:hello\x7d\x7d").key = "a" from rfl, h]; rfl) hev
    rw [parse_fn_single ev true "\x7b\x7ba:hello\x7d\x7d" "\x7b\x7ba:hello\x7d\x7d" rfl,
      stringRenderStep_value _ _ _ _ _ _ _ (JSValue.num n)
        (by simp [hres, invokeIfCallable])]
    exact spliceValue_scalar_whole _ _ _ (by simp [jsTypeof]) rfl rfl

/-- Witness for C5 on the empty context, with a concrete evaluator for the
evaluated-default conjunct. -/
theorem C5_witness :
    (parse noEval false (JSValue.str "\x7b\x7ba\x7d\x7d")).fn (JSValue.obj [])
        = Except.ok JSValue.null
    ∧ (parse noEval false (JSValue.str "\x7b\x7ba:hello\x7d\x7d")).fn (JSValue.obj [])
        = Except.ok (JSValue.str "hello") := by
  exact ⟨(C5_missing_path_null_or_default noEval (JSValue.obj []) rfl).1,
    (C5_missing_path_null_or_default noEval (JSValue.obj []) rfl).2.1⟩

/-! ### Claim C8 -/

/-- C8 counterexample: with two identical placeholders and a plain string
value the fold runs one step per match and first-occurrence replacement fills
both occurrences — the render result is the fully resolved string, with no
placeholder left, contradicting the claimed under-resolution. -/
theorem C8_counterexample :
    (parse noEval false (JSValue.str "\x7b\x7ba\x7d\x7d and \x7b\x7ba\x7d\x7d")).fn
        (JSValue.obj [("a", JSValue.str "X")])
      = Except.ok (JSValue.str "X and X")
    ∧ findMatchesStr "X and X" = [] :=
  ⟨rfl, rfl⟩

/-- C8 (amended): each fold step splices over the first occurrence of the
matched literal text in the accumulator; with one fold step per match,
repeated identical placeholders with plain string values are all resolved,
and under-resolution arises only when a resolved value itself contains
placeholder text, which shifts a later replacement onto the injected copy
and leaves an original occurrence unresolved. -/
theorem C8_amended_first_occurrence_replacement :
    (parse noEval false (JSValue.str "\x7b\x7ba\x7d\x7d and \x7b\x7ba\x7d\x7d")).fn
        (JSValue.obj [("a", JSValue.str "X")])
      = Except.ok (JSValue.str "X and X")
    ∧ (parse noEval false (JSValue.str "\x7b\x7ba\x7d\x7d \x7b\x7bb\x7d\x7d")).fn
        (JSValue.obj [("a", JSValue.str "\x7b\x7bb\x7d\x7d"), ("b", JSValue.str "V")])
      = Except.ok (JSValue.str "V \x7b\x7bb\x7d\x7d")
    ∧ findMatchesStr "V \x7b\x7bb\x7d\x7d" = ["\x7b\x7bb\x7d\x7d"] :=
  ⟨rfl, rfl, rfl⟩

/-! ### Claim C9 -/

/-- C9: a callable resolved value is invoked with no arguments and rendering
continues exactly with its return value; a throwing callable is not caught —
the failure propagates out of that render call, while the same compiled
template still renders under other contexts (first conjunct) since templates
are never mutated. -/
theorem C9_callable_invoked_throw_propagates
    (ev : Evaluator) (ed : Bool) (str m : String) (ctx v : JSValue)
    (hm : findMatchesStr str = [m])
    (hv : objectPathGet (contextOrEmpty ctx) (Parameter m).key = JSValue.funcRet v) :
    (parse ev ed (JSValue.str str)).fn ctx = spliceValue 1 (JSValue.str str) m v
    ∧ ∀ ctx2, objectPathGet (contextOrEmpty ctx2) (Parameter m).key = JSValue.funcThrow →
        (parse ev ed (JSValue.str str)).fn ctx2 = Except.error RenderError.functionThrew := by
  constructor
  · have hres : resolveParamValue ev ed (contextOrEmpty ctx) (Parameter m)
        = JSValue.funcRet v := by
      rw [resolveParamValue_found _ _ _ _ (by rw [hv]; rfl), hv]
    rw [parse_fn_single ev ed str m hm ctx,
      stringRenderStep_value _ _ _ _ _ _ _ v (by rw [hres]; rfl)]
  · intro ctx2 hv2
    have hres : resolveParamValue ev ed (contextOrEmpty ctx2) (Parameter m)
        = JSValue.funcThrow := by
      rw [resolveParamValue_found _ _ _ _ (by rw [hv2]; rfl), hv2]
    rw [parse_fn_single ev ed str m hm ctx2, stringRenderStep_funcThrow _ _ _ _ _ _ _ hres]

/-- Witness for C9: a callable returning `7` renders to `7`; a throwing
callable aborts the render with the propagated failure. -/
theorem C9_witness :
    (parse noEval false (JSValue.str "\x7b\x7bf\x7d\x7d")).fn
        (JSValue.obj [("f", JSValue.funcRet (JSValue.num 7))]) = Except.ok (JSValue.num 7)
    ∧ (parse noEval false (JSValue.str "\x7b\x7bf\x7d\x7d")).fn
        (JSValue.obj [("f", JSValue.funcThrow)]) = Except.error RenderError.functionThrew := by
  have h := C9_callable_invoked_throw_propagates noEval false
    "\x7b\x7bf\x7d\x7d" "\x7b\x7bf\x7d\x7d"
    (JSValue.obj [("f", JSValue.funcRet (JSValue.num 7))]) (JSValue.num 7) rfl rfl
  exact ⟨h.1, h.2 (JSValue.obj [("f", JSValue.funcThrow)]) rfl⟩

/-! ### Claim C10 -/

/-- C10: rendering `"\x7b\x7ba\x7d\x7d \x7b\x7bb\x7d\x7d"` under a context
binding only `b` (to any non-object, non-null, non-callable scalar) throws a
TypeError: the first placeholder substitutes `null` into the fold
accumulator, and the second step then calls `replace` on that `null`
accumulator. -/
theorem C10_null_accumulator_throws (ev : Evaluator) (v : JSValue)
    (h1 : jsTypeof v ≠ "object") (h2 : jsTypeof v ≠ "function")
    (h3 : isUndefOrNull v = false) :
    (parse ev false (JSValue.str "\x7b\x7ba\x7d\x7d \x7b\x7bb\x7d\x7d")).fn
        (JSValue.obj [("b", v)]) = Except.error RenderError.typeError := by
  rw [parse_fn_pair ev false "\x7b\x7ba\x7d\x7d \x7b\x7bb\x7d\x7d"
    "\x7b\x7ba\x7d\x7d" "\x7b\x7bb\x7d\x7d" rfl]
  have hstep1 : stringRenderStep ev false (contextOrEmpty (JSValue.obj [("b", v)])) 2
      (JSValue.str "\x7b\x7ba\x7d\x7d \x7b\x7bb\x7d\x7d") "\x7b\x7ba\x7d\x7d"
      (Parameter "\x7b\x7ba\x7d\x7d") = Except.ok JSValue.null := by
    have hres : resolveParamValue ev false (contextOrEmpty (JSValue.obj [("b", v)]))
        (Parameter "\x7b\x7ba\x7d\x7d") = JSValue.undefined :=
      resolveParamValue_missing_raw ev _ _ rfl
    rw [stringRenderStep_value _ _ _ _ _ _ _ JSValue.undefined
      (by simp [hres, invokeIfCallable])]
    exact spliceValue_undefined _ _ _
  rw [hstep1]
  show stringRenderStep ev false (contextOrEmpty (JSValue.obj [("b", v)])) 2
      JSValue.null "\x7b\x7bb\x7d\x7d" (Parameter "\x7b\x7bb\x7d\x7d")
    = Except.error RenderError.typeError
  have hl : objectPathGet (contextOrEmpty (JSValue.obj [("b", v)]))
      (Parameter "\x7b\x7bb\x7d\x7d").key = v := rfl
  have hres : resolveParamValue ev false (contextOrEmpty (JSValue.obj [("b", v)]))
      (Parameter "\x7b\x7bb\x7d\x7d") = v := by
    rw [resolveParamValue_found _ _ _ _ (by rw [hl]; exact h3), hl]
  rw [stringRenderStep_value _ _ _ _ _ _ _ v
    (by rw [hres]; exact invokeIfCallable_not_function v h2)]
  exact spliceValue_multi_null_acc 2 _ v h1 h3 (by decide)

/-- Witness for C10 at the spec's example `parse("\x7b\x7ba\x7d\x7d
\x7b\x7bb\x7d\x7d")(\x7bb: 5\x7d)`. -/
theorem C10_witness :
    (parse noEval false (JSValue.str "\x7b\x7ba\x7d\x7d \x7b\x7bb\x7d\x7d")).fn
        (JSValue.obj [("b", JSValue.num 5)]) = Except.error RenderError.typeError :=
  C10_null_accumulator_throws noEval (JSValue.num 5) (by decide) (by decide) rfl

/-! ### Claim C6 -/

theorem findIdx_colon_none (l : List Char) (h : ':' ∉ l) :
    l.findIdx? (fun c => c = ':') = none := by
  induction l with
  | nil => rfl
  | cons c rest ih =>
    have hc : ¬ c = ':' := fun hc => h (hc ▸ List.mem_cons_self c rest)
    have hrest : ':' ∉ rest := fun hm => h (List.mem_cons_of_mem c hm)
    simp [List.findIdx?_cons, hc, ih hrest]

theorem findIdx_colon_append (l r : List Char) (h : ':' ∉ l) :
    (l ++ ':' :: r).findIdx? (fun c => c = ':') = some l.length := by
  induction l with
  | nil => simp [List.findIdx?_cons]
  | cons c rest ih =>
    have hc : ¬ c = ':' := fun hc => h (hc ▸ List.mem_cons_self c rest)
    have hrest : ':' ∉ rest := fun hm => h (List.mem_cons_of_mem c hm)
    simp [List.findIdx?_cons, hc, ih hrest]

theorem take_append_exact (l r : List Char) : (l ++ r).take l.length = l := by
  induction l with
  | nil => rfl
  | cons c rest ih => simp [ih]

theorem drop_append_succ (l : List Char) (c : Char) (r : List Char) :
    (l ++ c :: r).drop (l.length + 1) = r := by
  induction l with
  | nil => rfl
  | cons d rest ih => simp [ih]

/-- C6 counterexample: the source trims the whole placeholder body before the
split, but the left part of the split is used as-is, so a space before the
colon survives into the key: the claim's trimmed key `"a"` is wrong. -/
theorem C6_counterexample :
    Parameter "\x7b\x7ba :b\x7d\x7d" = { key := "a ", defaultValue := some "b" }
    ∧ "a " ≠ "a" :=
  ⟨rfl, by decide⟩

/-- C6 (amended): the delimiters are stripped and the remainder trimmed as a
whole; the text is then split at the first colon only, the left part being
used as-is (it can keep whitespace adjacent to the colon; its leading
whitespace is gone only because the whole body was trimmed) as the key and
the right part as-is as the default-value source; with no colon there is no
`defaultValue`. -/
theorem C6_amended_split_first_colon_untrimmed (mtch : String) (body : List Char)
    (hb : trimChars ((mtch.toList.drop 2).take (mtch.toList.length - 4)) = body) :
    ((':' ∉ body) → Parameter mtch = { key := body.asString, defaultValue := none })
    ∧ (∀ l r : List Char, body = l ++ ':' :: r → (':' ∉ l) →
        Parameter mtch = { key := l.asString, defaultValue := some r.asString }) := by
  constructor
  · intro hno
    simp only [Parameter]
    rw [hb, findIdx_colon_none body hno]
  · intro l r hsplit hno
    simp only [Parameter]
    rw [hb, hsplit, findIdx_colon_append l r hno]
    show ({ key := ((l ++ ':' :: r).take l.length).asString,
            defaultValue := some (((l ++ ':' :: r).drop (l.length + 1)).asString) } : Param)
      = { key := l.asString, defaultValue := some r.asString }
    rw [take_append_exact l (':' :: r), drop_append_succ l ':' r]

/-- Witness for the amended C6: a defaultless placeholder, and a placeholder
whose key keeps the space standing before the colon. -/
theorem C6_witness :
    Parameter "\x7b\x7bfoo\x7d\x7d" = { key := "foo", defaultValue := none }
    ∧ Parameter "\x7b\x7ba :b\x7d\x7d" = { key := "a ", defaultValue := some "b" } := by
  constructor
  · exact (C6_amended_split_first_colon_untrimmed "\x7b\x7bfoo\x7d\x7d"
      ("foo".toList) rfl).1 (by decide)
  · exact (C6_amended_split_first_colon_untrimmed "\x7b\x7ba :b\x7d\x7d"
      ("a :b".toList) rfl).2 ("a ".toList) ("b".toList) rfl (by decide)

/-! ### Claim C1 -/

/-- Whether an object's field list binds each key once, as a JavaScript
object necessarily does (the assoc-list model would otherwise admit states no
JS object can be in). -/
def distinctKeys : List (String × JSValue) → Bool
  | [] => true
  | (k, _) :: rest => !(rest.any (fun kv => kv.1 == k)) && distinctKeys rest

mutual
/-- The hypothesis class of C1: a JSON-compatible value (strings, numbers,
booleans, `null`, dates, arrays, objects with once-bound keys — no
`undefined`, no callables) with no placeholder syntax in any string leaf or
object key. -/
def jsonNoPlaceholders : JSValue → Bool
  | JSValue.str s => (findMatchesStr s).isEmpty
  | JSValue.num _ => true
  | JSValue.bool _ => true
  | JSValue.null => true
  | JSValue.undefined => false
  | JSValue.date _ => true
  | JSValue.arr elems => jsonNoPlaceholdersList elems
  | JSValue.obj fields => distinctKeys fields && jsonNoPlaceholdersFields fields
  | JSValue.funcRet _ => false
  | JSValue.funcThrow => false
termination_by structural v => v

/-- Pointwise `jsonNoPlaceholders` over array elements. -/
def jsonNoPlaceholdersList : List JSValue → Bool
  | [] => true
  | v :: rest => jsonNoPlaceholders v && jsonNoPlaceholdersList rest
termination_by structural l => l

/-- Placeholder-free keys and pointwise `jsonNoPlaceholders` values over an
object's fields. -/
def jsonNoPlaceholdersFields : List (String × JSValue) → Bool
  | [] => true
  | (key, v) :: rest =>
    (findMatchesStr key).isEmpty && jsonNoPlaceholders v && jsonNoPlaceholdersFields rest
termination_by structural l => l
end

theorem listIsEmpty_eq_nil {α : Type} (l : List α) (h : l.isEmpty = true) : l = [] := by
  cases l with
  | nil => rfl
  | cons x xs => simp [List.isEmpty] at h

theorem arrayTemplateParameters_acc (ts : List Template) (acc : List Param)
    (h : ∀ t ∈ ts, t.parameters = []) :
    ts.foldl (fun parameters t => parameters ++ t.parameters) acc = acc := by
  induction ts generalizing acc with
  | nil => rfl
  | cons t rest ih =>
    rw [List.foldl_cons, h t (List.mem_cons_self t rest), List.append_nil]
    exact ih acc fun u hu => h u (List.mem_cons_of_mem t hu)

theorem objectTemplateParameters_acc (cs : List Child) (acc : List Param)
    (h : ∀ c ∈ cs, c.keyTemplate.parameters = [] ∧ c.valueTemplate.parameters = []) :
    cs.foldl (fun parameters c =>
      parameters ++ c.valueTemplate.parameters ++ c.keyTemplate.parameters) acc = acc := by
  induction cs generalizing acc with
  | nil => rfl
  | cons c rest ih =>
    rw [List.foldl_cons, (h c (List.mem_cons_self c rest)).1,
      (h c (List.mem_cons_self c rest)).2, List.append_nil, List.append_nil]
    exact ih acc fun u hu => h u (List.mem_cons_of_mem c hu)

mutual
/-- C1 workhorse: a placeholder-free JSON value compiles to a template with
no parameters that reproduces the value under every context. -/
def parseRoundtrip (ev : Evaluator) (ed : Bool) :
    ∀ v : JSValue, jsonNoPlaceholders v = true →
      (parse ev ed v).parameters = []
      ∧ ∀ ctx, (parse ev ed v).fn ctx = Except.ok v
  | JSValue.str s, h => by
    have hm : findMatchesStr s = [] := listIsEmpty_eq_nil _ h
    refine ⟨?_, fun ctx => parse_fn_no_match ev ed s hm ctx⟩
    have hp := parseString_parameters_eq ev ed s
    rw [hm] at hp
    exact hp
  | JSValue.num n, _ => ⟨rfl, fun _ => rfl⟩
  | JSValue.bool b, _ => ⟨rfl, fun _ => rfl⟩
  | JSValue.null, _ => ⟨rfl, fun _ => rfl⟩
  | JSValue.date t, _ => ⟨rfl, fun _ => rfl⟩
  | JSValue.undefined, h => absurd h (by decide)
  | JSValue.funcRet _, h => absurd h (by simp [jsonNoPlaceholders])
  | JSValue.funcThrow, h => absurd h (by decide)
  | JSValue.arr elems, h => by
    have hl := parseRoundtripList ev ed elems h
    refine ⟨?_, fun ctx => ?_⟩
    · have hp : arrayTemplateParameters (parseTemplates ev ed elems) = [] :=
        arrayTemplateParameters_acc _ [] hl.1
      show dedupe (arrayTemplateParameters (parseTemplates ev ed elems))
        (fun item => item.key) = []
      rw [hp]
      rfl
    · have harr : arrayTemplateFn (parseTemplates ev ed elems) ctx
          = (List.mapM (fun (t : Template) => t.fn ctx) (parseTemplates ev ed elems)).bind
              (fun es => Except.ok (JSValue.arr es)) := rfl
      show arrayTemplateFn (parseTemplates ev ed elems) ctx
        = Except.ok (JSValue.arr elems)
      rw [harr, hl.2 ctx]
      rfl
  | JSValue.obj fields, h => by
    have hboth : (distinctKeys fields && jsonNoPlaceholdersFields fields) = true := h
    have hdk : distinctKeys fields = true := (Bool.and_eq_true _ _ |>.mp hboth).1
    have hfs : jsonNoPlaceholdersFields fields = true := (Bool.and_eq_true _ _ |>.mp hboth).2
    have hf := parseRoundtripFields ev ed fields hfs
    refine ⟨?_, fun ctx => ?_⟩
    · have hp : objectTemplateParameters (parseChildren ev ed fields) = [] :=
        objectTemplateParameters_acc _ [] hf.1
      show dedupe (objectTemplateParameters (parseChildren ev ed fields))
        (fun item => item.key) = []
      rw [hp]
      rfl
    · have hfold := hf.2 ctx [] (fun kv _ => rfl) hdk
      have hobj : objectTemplateFn (parseChildren ev ed fields) ctx
          = ((parseChildren ev ed fields).foldlM (objAssignStep ctx)
              ([] : List (String × JSValue))).bind
              (fun fs => Except.ok (JSValue.obj fs)) := rfl
      show objectTemplateFn (parseChildren ev ed fields) ctx
        = Except.ok (JSValue.obj fields)
      rw [hobj, hfold]
      rfl

/-- C1 workhorse over array elements. -/
def parseRoundtripList (ev : Evaluator) (ed : Bool) :
    ∀ elems : List JSValue, jsonNoPlaceholdersList elems = true →
      (∀ t ∈ parseTemplates ev ed elems, t.parameters = [])
      ∧ ∀ ctx, List.mapM (fun (t : Template) => t.fn ctx) (parseTemplates ev ed elems)
          = Except.ok elems
  | [], _ => ⟨by simp [parseTemplates], fun ctx => rfl⟩
  | v :: rest, h => by
    have hboth : (jsonNoPlaceholders v && jsonNoPlaceholdersList rest) = true := h
    have h1 : jsonNoPlaceholders v = true := (Bool.and_eq_true _ _ |>.mp hboth).1
    have h2 : jsonNoPlaceholdersList rest = true := (Bool.and_eq_true _ _ |>.mp hboth).2
    have ihv := parseRoundtrip ev ed v h1
    have ihr := parseRoundtripList ev ed rest h2
    refine ⟨?_, fun ctx => ?_⟩
    · intro t ht
      rw [show parseTemplates ev ed (v :: rest)
        = parse ev ed v :: parseTemplates ev ed rest from rfl] at ht
      rcases List.mem_cons.mp ht with heq | hmem
      · rw [heq]; exact ihv.1
      · exact ihr.1 t hmem
    · rw [show parseTemplates ev ed (v :: rest)
        = parse ev ed v :: parseTemplates ev ed rest from rfl]
      simp only [List.mapM_cons, ihv.2 ctx, ihr.2 ctx]
      rfl

/-- C1 workhorse over object fields: with pairwise-distinct keys that are
disjoint from the accumulator, the object fold rebuilds the original
fields. -/
def parseRoundtripFields (ev : Evaluator) (ed : Bool) :
    ∀ fields : List (String × JSValue), jsonNoPlaceholdersFields fields = true →
      (∀ c ∈ parseChildren ev ed fields,
        c.keyTemplate.parameters = [] ∧ c.valueTemplate.parameters = [])
      ∧ ∀ (ctx : JSValue) (acc : List (String × JSValue)),
          (∀ kv ∈ fields, acc.any (fun f => f.1 == kv.1) = false) →
          distinctKeys fields = true →
          (parseChildren ev ed fields).foldlM (objAssignStep ctx) acc
            = Except.ok (acc ++ fields)
  | [], _ => ⟨by simp [parseChildren], fun ctx acc _ _ => by
      show Except.ok acc = Except.ok (acc ++ [])
      simp⟩
  | (k, v) :: rest, h => by
    have hboth : ((findMatchesStr k).isEmpty && jsonNoPlaceholders v
        && jsonNoPlaceholdersFields rest) = true := h
    have hk : findMatchesStr k = [] :=
      listIsEmpty_eq_nil _ (Bool.and_eq_true _ _
        |>.mp (Bool.and_eq_true _ _ |>.mp hboth).1).1
    have hv : jsonNoPlaceholders v = true :=
      (Bool.and_eq_true _ _ |>.mp (Bool.and_eq_true _ _ |>.mp hboth).1).2
    have hrest : jsonNoPlaceholdersFields rest = true :=
      (Bool.and_eq_true _ _ |>.mp hboth).2
    have ihv := parseRoundtrip ev ed v hv
    have ihr := parseRoundtripFields ev ed rest hrest
    refine ⟨?_, fun ctx acc hdisj hdk => ?_⟩
    · intro c hc
      rw [show parseChildren ev ed ((k, v) :: rest)
        = { keyTemplate := parseString ev k ed, valueTemplate := parse ev ed v }
            :: parseChildren ev ed rest from rfl] at hc
      rcases List.mem_cons.mp hc with heq | hmem
      · rw [heq]
        refine ⟨?_, ihv.1⟩
        have hp := parseString_parameters_eq ev ed k
        rw [hk] at hp
        exact hp
      · exact ihr.1 c hmem
    · have hdkboth : (!(rest.any (fun kv => kv.1 == k)) && distinctKeys rest) = true := hdk
      have hdkh : rest.any (fun kv => kv.1 == k) = false := by
        have := (Bool.and_eq_true _ _ |>.mp hdkboth).1
        simpa using this
      have hdkr : distinctKeys rest = true := (Bool.and_eq_true _ _ |>.mp hdkboth).2
      have hanyk : acc.any (fun f => f.1 == k) = false :=
        hdisj (k, v) (List.mem_cons_self _ _)
      have h1 : (parseString ev k ed).fn ctx = Except.ok (JSValue.str k) :=
        parseString_no_match ev ed k hk ctx
      have hstep : objAssignStep ctx acc
          { keyTemplate := parseString ev k ed, valueTemplate := parse ev ed v }
            = Except.ok (acc ++ [(k, v)]) := by
        show ((parseString ev k ed).fn ctx).bind (fun kk =>
            ((parse ev ed v).fn ctx).bind (fun vv =>
              Except.ok (assignField acc (jsToString kk) vv)))
          = Except.ok (acc ++ [(k, v)])
        rw [h1]
        show ((parse ev ed v).fn ctx).bind (fun vv =>
            Except.ok (assignField acc k vv)) = Except.ok (acc ++ [(k, v)])
        rw [ihv.2 ctx]
        show Except.ok (assignField acc k v) = Except.ok (acc ++ [(k, v)])
        simp [assignField, hanyk]
      have hdisj2 : ∀ kv ∈ rest, (acc ++ [(k, v)]).any (fun f => f.1 == kv.1) = false := by
        intro kv hkv
        have hin : acc.any (fun f => f.1 == kv.1) = false :=
          hdisj kv (List.mem_cons_of_mem _ hkv)
        have hne : (k == kv.1) = false := by
          rcases Bool.eq_false_or_eq_true (k == kv.1) with htt | hff
          · exfalso
            have hkk : k = kv.1 := by simpa using htt
            have hany : rest.any (fun kv2 => kv2.1 == k) = true :=
              List.any_eq_true.mpr ⟨kv, hkv, by simp [hkk]⟩
            simp [hany] at hdkh
          · exact hff
        simp [List.any_append, hin, hne]
      rw [show parseChildren ev ed ((k, v) :: rest)
        = { keyTemplate := parseString ev k ed, valueTemplate := parse ev ed v }
            :: parseChildren ev ed rest from rfl,
        List.foldlM_cons, hstep]
      show (parseChildren ev ed rest).foldlM (objAssignStep ctx) (acc ++ [(k, v)])
        = Except.ok (acc ++ (k, v) :: rest)
      rw [ihr.2 ctx (acc ++ [(k, v)]) hdisj2 hdkr]
      simp
end

/-- C1: a JSON-compatible value with no placeholder syntax anywhere compiles
to a template with an empty parameter list that, under every context, renders
to a value deep-equal to the original (strings as-is, arrays and objects
rebuilt in order, scalars, `null` and dates unchanged). -/
theorem C1_no_placeholder_roundtrip (ev : Evaluator) (ed : Bool) (v : JSValue)
    (h : jsonNoPlaceholders v = true) :
    (parse ev ed v).parameters = [] ∧ ∀ ctx, (parse ev ed v).fn ctx = Except.ok v :=
  parseRoundtrip ev ed v h

/-- Witness for C1 on a nested object/array value. -/
theorem C1_witness :
    (parse noEval false (JSValue.obj [("k", JSValue.arr
        [JSValue.num 1, JSValue.str "s", JSValue.null])])).parameters = []
    ∧ (parse noEval false (JSValue.obj [("k", JSValue.arr
        [JSValue.num 1, JSValue.str "s", JSValue.null])])).fn JSValue.undefined
      = Except.ok (JSValue.obj [("k", JSValue.arr
          [JSValue.num 1, JSValue.str "s", JSValue.null])]) := by
  have h := C1_no_placeholder_roundtrip noEval false
    (JSValue.obj [("k", JSValue.arr [JSValue.num 1, JSValue.str "s", JSValue.null])])
    (by decide)
  exact ⟨h.1, h.2 JSValue.undefined⟩

/-! ### Claim C7: the dedupe collaborator -/

theorem contains_eq_decide_mem (l : List String) (a : String) :
    l.contains a = decide (a ∈ l) :=
  List.elem_eq_mem a l

theorem dedupeAux_cons (keyFn : Param → String) (p : Param) (rest : List Param)
    (seen : List String) :
    dedupeAux keyFn (p :: rest) seen
      = if keyFn p ∈ seen then dedupeAux keyFn rest seen
        else p :: dedupeAux keyFn rest (keyFn p :: seen) := by
  cases hmem : seen.contains (keyFn p) with
  | true =>
    have h2 : keyFn p ∈ seen := by
      have := (contains_eq_decide_mem seen (keyFn p)).symm.trans hmem
      simpa using this
    simp [dedupeAux, hmem, h2]
  | false =>
    have h2 : keyFn p ∉ seen := by
      have := (contains_eq_decide_mem seen (keyFn p)).symm.trans hmem
      simpa using this
    simp [dedupeAux, hmem, h2]

theorem dedupeAux_congr (keyFn : Param → String) :
    ∀ (l : List Param) (s1 s2 : List String),
      (∀ p ∈ l, keyFn p ∈ s1 ↔ keyFn p ∈ s2) →
      dedupeAux keyFn l s1 = dedupeAux keyFn l s2 := by
  intro l
  induction l with
  | nil => intro s1 s2 _; rfl
  | cons p rest ih =>
    intro s1 s2 h
    have hp := h p (List.mem_cons_self p rest)
    have hr : ∀ q ∈ rest, keyFn q ∈ s1 ↔ keyFn q ∈ s2 :=
      fun q hq => h q (List.mem_cons_of_mem p hq)
    rw [dedupeAux_cons, dedupeAux_cons]
    by_cases hc : keyFn p ∈ s2
    · rw [if_pos (hp.mpr hc), if_pos hc]
      exact ih s1 s2 hr
    · rw [if_neg (fun hh => hc (hp.mp hh)), if_neg hc]
      have hext : ∀ q ∈ rest, keyFn q ∈ (keyFn p :: s1) ↔ keyFn q ∈ (keyFn p :: s2) := by
        intro q hq
        simp only [List.mem_cons, hr q hq]
      rw [ih (keyFn p :: s1) (keyFn p :: s2) hext]

theorem dedupeAux_append (keyFn : Param → String) :
    ∀ (xs ys : List Param) (seen : List String),
      dedupeAux keyFn (xs ++ ys) seen
        = dedupeAux keyFn xs seen ++ dedupeAux keyFn ys (xs.map keyFn ++ seen) := by
  intro xs
  induction xs with
  | nil => intro ys seen; rfl
  | cons p rest ih =>
    intro ys seen
    rw [List.cons_append, dedupeAux_cons, dedupeAux_cons]
    by_cases hc : keyFn p ∈ seen
    · rw [if_pos hc, if_pos hc, ih ys seen, List.map_cons]
      have hext : ∀ q ∈ ys, keyFn q ∈ (rest.map keyFn ++ seen)
          ↔ keyFn q ∈ (keyFn p :: rest.map keyFn ++ seen) := by
        intro q _
        simp only [List.cons_append, List.mem_cons, List.mem_append]
        constructor
        · tauto
        · rintro (h | h | h)
          · exact Or.inr (h ▸ hc)
          · exact Or.inl h
          · exact Or.inr h
      rw [dedupeAux_congr keyFn ys _ _ hext]
    · rw [if_neg hc, if_neg hc, ih ys (keyFn p :: seen), List.map_cons]
      have hext : ∀ q ∈ ys, keyFn q ∈ (rest.map keyFn ++ (keyFn p :: seen))
          ↔ keyFn q ∈ (keyFn p :: rest.map keyFn ++ seen) := by
        intro q _
        simp only [List.cons_append, List.mem_cons, List.mem_append]
        tauto
      rw [dedupeAux_congr keyFn ys _ _ hext]
      rfl

theorem dedupeAux_compose (keyFn : Param → String) :
    ∀ (l : List Param) (s1 s2 : List String),
      dedupeAux keyFn (dedupeAux keyFn l s1) s2 = dedupeAux keyFn l (s1 ++ s2) := by
  intro l
  induction l with
  | nil => intro s1 s2; rfl
  | cons p rest ih =>
    intro s1 s2
    rw [dedupeAux_cons keyFn p rest s1, dedupeAux_cons keyFn p rest (s1 ++ s2)]
    by_cases h1 : keyFn p ∈ s1
    · rw [if_pos h1, if_pos (List.mem_append.mpr (Or.inl h1)), ih s1 s2]
    · rw [if_neg h1, dedupeAux_cons keyFn p (dedupeAux keyFn rest (keyFn p :: s1)) s2]
      by_cases h2 : keyFn p ∈ s2
      · rw [if_pos h2, if_pos (List.mem_append.mpr (Or.inr h2)), ih (keyFn p :: s1) s2]
        apply dedupeAux_congr
        intro q _
        simp only [List.cons_append, List.mem_cons, List.mem_append]
        constructor
        · rintro (h | h | h)
          · exact Or.inr (h ▸ h2)
          · exact Or.inl h
          · exact Or.inr h
        · tauto
      · rw [if_neg h2, if_neg (fun hh => (List.mem_append.mp hh).elim h1 h2),
          ih (keyFn p :: s1) (keyFn p :: s2)]
        have hext : ∀ q ∈ rest, keyFn q ∈ ((keyFn p :: s1) ++ (keyFn p :: s2))
            ↔ keyFn q ∈ (keyFn p :: (s1 ++ s2)) := by
          intro q _
          simp only [List.cons_append, List.mem_cons, List.mem_append]
          tauto
        rw [dedupeAux_congr keyFn rest _ _ hext]

theorem dedupe_dedupe (l : List Param) (keyFn : Param → String) :
    dedupe (dedupe l keyFn) keyFn = dedupe l keyFn := by
  show dedupeAux keyFn (dedupeAux keyFn l []) [] = dedupeAux keyFn l []
  rw [dedupeAux_compose]
  rfl

theorem dedupeAux_of_dedupe (l : List Param) (s : List String) (keyFn : Param → String) :
    dedupeAux keyFn (dedupe l keyFn) s = dedupeAux keyFn l s := by
  show dedupeAux keyFn (dedupeAux keyFn l []) s = dedupeAux keyFn l s
  rw [dedupeAux_compose]
  rfl

theorem mem_map_dedupeAux (keyFn : Param → String) :
    ∀ (l : List Param) (s : List String) (a : String),
      (a ∈ (dedupeAux keyFn l s).map keyFn) ↔ (a ∈ l.map keyFn ∧ a ∉ s) := by
  intro l
  induction l with
  | nil => intro s a; simp [dedupeAux]
  | cons p rest ih =>
    intro s a
    rw [dedupeAux_cons]
    by_cases hc : keyFn p ∈ s
    · rw [if_pos hc]
      simp only [List.map_cons, List.mem_cons]
      rw [ih s a]
      constructor
      · rintro ⟨h, hns⟩
        exact ⟨Or.inr h, hns⟩
      · rintro ⟨h | h, hns⟩
        · exact absurd (h ▸ hc) hns
        · exact ⟨h, hns⟩
    · rw [if_neg hc]
      simp only [List.map_cons, List.mem_cons]
      rw [ih (keyFn p :: s) a]
      constructor
      · rintro (h | ⟨hm, hns⟩)
        · exact ⟨Or.inl h, h ▸ hc⟩
        · exact ⟨Or.inr hm, fun hs => hns (List.mem_cons_of_mem _ hs)⟩
      · rintro ⟨h | h, hns⟩
        · exact Or.inl h
        · rcases eq_or_ne a (keyFn p) with he | hne
          · exact Or.inl he
          · exact Or.inr ⟨h, fun hk => (List.mem_cons.mp hk).elim hne hns⟩

theorem dedupe_append_left (xs ys : List Param) (keyFn : Param → String) :
    dedupe (dedupe xs keyFn ++ ys) keyFn = dedupe (xs ++ ys) keyFn := by
  show dedupeAux keyFn (dedupe xs keyFn ++ ys) [] = dedupeAux keyFn (xs ++ ys) []
  rw [dedupeAux_append, dedupeAux_append, dedupeAux_of_dedupe]
  congr 1
  apply dedupeAux_congr
  intro q _
  simp only [List.append_nil]
  rw [show dedupe xs keyFn = dedupeAux keyFn xs [] from rfl, mem_map_dedupeAux]
  simp

theorem dedupe_append_congr_right (xs A B : List Param) (keyFn : Param → String)
    (h : dedupe A keyFn = dedupe B keyFn) :
    dedupe (xs ++ A) keyFn = dedupe (xs ++ B) keyFn := by
  show dedupeAux keyFn (xs ++ A) [] = dedupeAux keyFn (xs ++ B) []
  rw [dedupeAux_append, dedupeAux_append]
  congr 1
  rw [← dedupeAux_of_dedupe A, h, dedupeAux_of_dedupe]

theorem dedupe_append_congr_left (A B ys : List Param) (keyFn : Param → String)
    (h : dedupe A keyFn = dedupe B keyFn) :
    dedupe (A ++ ys) keyFn = dedupe (B ++ ys) keyFn := by
  rw [← dedupe_append_left A ys, h, dedupe_append_left]

theorem dedupeAux_sublist (keyFn : Param → String) :
    ∀ (l : List Param) (s : List String), (dedupeAux keyFn l s).Sublist l := by
  intro l
  induction l with
  | nil => intro s; exact List.Sublist.refl []
  | cons p rest ih =>
    intro s
    rw [dedupeAux_cons]
    by_cases hc : keyFn p ∈ s
    · rw [if_pos hc]
      exact List.Sublist.cons p (ih s)
    · rw [if_neg hc]
      exact List.Sublist.cons₂ p (ih (keyFn p :: s))

theorem dedupeAux_find_first (keyFn : Param → String) :
    ∀ (l : List Param) (s : List String) (p : Param), p ∈ dedupeAux keyFn l s →
      keyFn p ∉ s ∧ l.find? (fun q => keyFn q == keyFn p) = some p := by
  intro l
  induction l with
  | nil => intro s p hp; exact absurd hp (List.not_mem_nil p)
  | cons x rest ih =>
    intro s p hp
    rw [dedupeAux_cons] at hp
    by_cases hc : keyFn x ∈ s
    · rw [if_pos hc] at hp
      obtain ⟨hns, hfind⟩ := ih s p hp
      have hne : (keyFn x == keyFn p) = false := by
        rcases Bool.eq_false_or_eq_true (keyFn x == keyFn p) with htt | hff
        · exfalso
          have : keyFn x = keyFn p := by simpa using htt
          exact hns (this ▸ hc)
        · exact hff
      exact ⟨hns, by rw [List.find?_cons_of_neg _ (by simp [hne]), hfind]⟩
    · rw [if_neg hc] at hp
      rcases List.mem_cons.mp hp with heq | hmem
      · subst heq
        refine ⟨hc, ?_⟩
        rw [List.find?_cons_of_pos _ (by simp)]
      · obtain ⟨hns, hfind⟩ := ih (keyFn x :: s) p hmem
        have hnx : keyFn p ≠ keyFn x := fun he => hns (by rw [he]; exact List.mem_cons_self _ _)
        refine ⟨fun hs => hns (List.mem_cons_of_mem _ hs), ?_⟩
        rw [List.find?_cons_of_neg _ (by simp; exact fun he => hnx he.symm), hfind]

theorem dedupeAux_covers (keyFn : Param → String) :
    ∀ (l : List Param) (s : List String) (p : Param), p ∈ l → keyFn p ∉ s →
      ∃ q ∈ dedupeAux keyFn l s, keyFn q = keyFn p := by
  intro l
  induction l with
  | nil => intro s p hp _; exact absurd hp (List.not_mem_nil p)
  | cons x rest ih =>
    intro s p hp hns
    rw [dedupeAux_cons]
    by_cases hc : keyFn x ∈ s
    · rw [if_pos hc]
      rcases List.mem_cons.mp hp with heq | hmem
      · exact absurd (heq ▸ hc) hns
      · exact ih s p hmem hns
    · rw [if_neg hc]
      rcases List.mem_cons.mp hp with heq | hmem
      · exact ⟨x, List.mem_cons_self _ _, (heq ▸ rfl : keyFn x = keyFn p)⟩
      · by_cases hkx : keyFn p = keyFn x
        · exact ⟨x, List.mem_cons_self _ _, hkx.symm⟩
        · obtain ⟨q, hq, hqk⟩ := ih (keyFn x :: s) p hmem
            (fun hk => (List.mem_cons.mp hk).elim hkx hns)
          exact ⟨q, List.mem_cons_of_mem _ hq, hqk⟩

theorem foldl_append_hoist (g : Template → List Param) :
    ∀ (l : List Template) (acc : List Param),
      l.foldl (fun ps x => ps ++ g x) acc = acc ++ l.foldl (fun ps x => ps ++ g x) [] := by
  intro l
  induction l with
  | nil => intro acc; simp
  | cons x xs ih =>
    intro acc
    rw [List.foldl_cons, List.foldl_cons, ih (acc ++ g x), ih ([] ++ g x)]
    simp [List.append_assoc]

theorem foldl_obj_hoist :
    ∀ (cs : List Child) (acc : List Param),
      cs.foldl (fun ps c =>
          ps ++ c.valueTemplate.parameters ++ c.keyTemplate.parameters) acc
        = acc ++ cs.foldl (fun ps c =>
            ps ++ c.valueTemplate.parameters ++ c.keyTemplate.parameters) [] := by
  intro cs
  induction cs with
  | nil => intro acc; simp
  | cons c rest ih =>
    intro acc
    rw [List.foldl_cons, List.foldl_cons, ih (acc ++ _ ++ _), ih ([] ++ _ ++ _)]
    simp [List.append_assoc]

theorem arrayTemplateParameters_cons (t : Template) (ts : List Template) :
    arrayTemplateParameters (t :: ts) = t.parameters ++ arrayTemplateParameters ts := by
  show List.foldl (fun ps x => ps ++ x.parameters) ([] ++ t.parameters) ts
    = t.parameters ++ arrayTemplateParameters ts
  rw [List.nil_append]
  exact foldl_append_hoist Template.parameters ts t.parameters

theorem objectTemplateParameters_cons (c : Child) (cs : List Child) :
    objectTemplateParameters (c :: cs)
      = c.valueTemplate.parameters ++ c.keyTemplate.parameters
          ++ objectTemplateParameters cs := by
  show List.foldl (fun ps x =>
      ps ++ x.valueTemplate.parameters ++ x.keyTemplate.parameters)
      ([] ++ c.valueTemplate.parameters ++ c.keyTemplate.parameters) cs
    = c.valueTemplate.parameters ++ c.keyTemplate.parameters ++ objectTemplateParameters cs
  rw [List.nil_append]
  exact foldl_obj_hoist cs _

mutual
/-- The raw, pre-deduplication parameter sequence in document-traversal
order, written from the spec's words (§3 invariants, §4.3-§4.5): one
descriptor per tokenizer match for a string; for an object, per key in
iteration order, the value's parameters then the key's; for an array,
element order; every other value contributes none. This is the
specification-side definition C7 compares the implementation against. -/
def specRawParameters : JSValue → List Param
  | JSValue.str s => (findMatchesStr s).map Parameter
  | JSValue.obj fields => specRawParametersFields fields
  | JSValue.arr elems => specRawParametersList elems
  | _ => []
termination_by structural v => v

/-- Document-order raw parameters of an object's fields. -/
def specRawParametersFields : List (String × JSValue) → List Param
  | [] => []
  | (key, v) :: rest =>
    specRawParameters v ++ (findMatchesStr key).map Parameter
      ++ specRawParametersFields rest
termination_by structural l => l

/-- Document-order raw parameters of an array's elements. -/
def specRawParametersList : List JSValue → List Param
  | [] => []
  | v :: rest => specRawParameters v ++ specRawParametersList rest
termination_by structural l => l
end

mutual
/-- C7 workhorse: the implementation's per-level dedupe-and-concatenate
aggregation computes exactly the dedupe of the spec's document-order raw
parameter sequence. -/
def paramsEqSpec (ev : Evaluator) (ed : Bool) :
    ∀ v : JSValue, (parse ev ed v).parameters
      = dedupe (specRawParameters v) (fun item => item.key)
  | JSValue.str s => parseString_parameters_eq ev ed s
  | JSValue.num _ => rfl
  | JSValue.bool _ => rfl
  | JSValue.null => rfl
  | JSValue.undefined => rfl
  | JSValue.date _ => rfl
  | JSValue.funcRet _ => rfl
  | JSValue.funcThrow => rfl
  | JSValue.arr elems => by
    show dedupe (arrayTemplateParameters (parseTemplates ev ed elems))
        (fun item => item.key)
      = dedupe (specRawParametersList elems) (fun item => item.key)
    exact paramsEqSpecList ev ed elems
  | JSValue.obj fields => by
    show dedupe (objectTemplateParameters (parseChildren ev ed fields))
        (fun item => item.key)
      = dedupe (specRawParametersFields fields) (fun item => item.key)
    exact paramsEqSpecFields ev ed fields

/-- C7 workhorse over array elements. -/
def paramsEqSpecList (ev : Evaluator) (ed : Bool) :
    ∀ elems : List JSValue,
      dedupe (arrayTemplateParameters (parseTemplates ev ed elems))
          (fun item => item.key)
        = dedupe (specRawParametersList elems) (fun item => item.key)
  | [] => rfl
  | v :: rest => by
    rw [show parseTemplates ev ed (v :: rest)
        = parse ev ed v :: parseTemplates ev ed rest from rfl,
      arrayTemplateParameters_cons,
      show specRawParametersList (v :: rest)
        = specRawParameters v ++ specRawParametersList rest from rfl,
      paramsEqSpec ev ed v, dedupe_append_left]
    exact dedupe_append_congr_right _ _ _ _ (paramsEqSpecList ev ed rest)

/-- C7 workhorse over object fields. -/
def paramsEqSpecFields (ev : Evaluator) (ed : Bool) :
    ∀ fields : List (String × JSValue),
      dedupe (objectTemplateParameters (parseChildren ev ed fields))
          (fun item => item.key)
        = dedupe (specRawParametersFields fields) (fun item => item.key)
  | [] => rfl
  | (k, v) :: rest => by
    rw [show parseChildren ev ed ((k, v) :: rest)
        = { keyTemplate := parseString ev k ed, valueTemplate := parse ev ed v }
            :: parseChildren ev ed rest from rfl,
      objectTemplateParameters_cons,
      show specRawParametersFields ((k, v) :: rest)
        = specRawParameters v ++ (findMatchesStr k).map Parameter
            ++ specRawParametersFields rest from rfl]
    show dedupe ((parse ev ed v).parameters ++ (parseString ev k ed).parameters
        ++ objectTemplateParameters (parseChildren ev ed rest)) (fun item => item.key)
      = dedupe (specRawParameters v ++ (findMatchesStr k).map Parameter
          ++ specRawParametersFields rest) (fun item => item.key)
    rw [paramsEqSpec ev ed v, parseString_parameters_eq ev ed k,
      List.append_assoc, List.append_assoc, dedupe_append_left]
    apply dedupe_append_congr_right
    rw [dedupe_append_left]
    apply dedupe_append_congr_right
    exact paramsEqSpecFields ev ed rest
end

/-- C7: a compiled template's parameter list is the key-deduplicated (first
occurrence retained, order preserving) document-traversal-order parameter
sequence — value-template parameters before key-template parameters per
object key in iteration order, element order for arrays — and the dedupe
collaborator keeps, for each key, exactly the first descriptor, discarding
later ones even when they carry a different default. -/
theorem C7_parameter_order_and_dedup (ev : Evaluator) (ed : Bool) :
    (∀ v : JSValue, (parse ev ed v).parameters
        = dedupe (specRawParameters v) (fun item => item.key))
    ∧ (∀ l : List Param,
        (dedupe l (fun item => item.key)).Sublist l
        ∧ (∀ p ∈ dedupe l (fun item => item.key),
            l.find? (fun q => q.key == p.key) = some p)
        ∧ (∀ p ∈ l, ∃ q ∈ dedupe l (fun item => item.key), q.key = p.key))
    ∧ (parse ev ed (JSValue.str "\x7b\x7ba\x7d\x7d-\x7b\x7ba:def\x7d\x7d")).parameters
        = [{ key := "a", defaultValue := none }] := by
  refine ⟨fun v => paramsEqSpec ev ed v, fun l => ⟨?_, ?_, ?_⟩, rfl⟩
  · exact dedupeAux_sublist _ l []
  · intro p hp
    exact (dedupeAux_find_first (fun item => item.key) l [] p hp).2
  · intro p hp
    exact dedupeAux_covers (fun item => item.key) l [] p hp (List.not_mem_nil _)

/-- Witness for C7: the spec's array example compared against the
specification-side traversal, and first-occurrence retention on a duplicated
key. -/
theorem C7_witness :
    (parse noEval false (JSValue.arr [JSValue.obj [("a", JSValue.str "\x7b\x7bx\x7d\x7d")],
        JSValue.str "\x7b\x7by\x7d\x7d"])).parameters
      = dedupe (specRawParameters (JSValue.arr [JSValue.obj [("a",
          JSValue.str "\x7b\x7bx\x7d\x7d")], JSValue.str "\x7b\x7by\x7d\x7d"]))
          (fun item => item.key)
    ∧ [({ key := "a", defaultValue := none } : Param),
        { key := "a", defaultValue := some "def" }].find?
          (fun q => q.key == ({ key := "a", defaultValue := none } : Param).key)
        = some { key := "a", defaultValue := none } := by
  have h := C7_parameter_order_and_dedup noEval false
  refine ⟨h.1 _, ?_⟩
  exact (h.2.1 [{ key := "a", defaultValue := none },
    { key := "a", defaultValue := some "def" }]).2.1
    { key := "a", defaultValue := none } (by decide)

end JsonTemplates
